import Mathlib

/-!
Verification of the unweave control plane core: the session lifecycle
orchestration (create, watch, list, terminate), the credential resolver and
the LambdaLabs provider adapter, shallowly embedded from the Go sources.

Go strings are Lean `String`, UUIDs and timestamps are opaque `String`/`Nat`
values, channels consumed by the status watcher become a list of tagged
events, and the persistence port is explicit list-valued state threaded
through each operation.  External call outcomes (runtime construction,
provider REST responses, transient store failures) are parameters of the
embedded functions so that every control-flow path of the source is
represented.
-/

namespace Unweave

/-- Session status constants, from `api/types`: the Go type is a string with
three constants. -/
def statusInitializing : String := "initializing"

def statusActive : String := "active"

def statusTerminated : String := "terminated"

/-- Provider identifier constant from `api/types`. -/
def lambdaLabsProvider : String := "LambdaLabs"

/-- Go errors as used by the sources: `uw` is the structured `types.Error`
(code, provider, message, suggestion), `str` a plain `fmt.Errorf` message,
and `wrap` a `fmt.Errorf("msg: %w", err)` wrapping of a cause. -/
inductive GoError where
  | uw (code : Nat) (provider message suggestion : String)
  | str (s : String)
  | wrap (msg : String) (cause : GoError)
deriving DecidableEq, Repr

/-- `types.SSHKey`: name plus optional private key, public key and creation
time. -/
structure SSHKey where
  name : String
  privateKey : Option String := none
  publicKey : Option String := none
  createdAt : Option Nat := none
deriving DecidableEq, Repr

/-! ## Status watcher

The goroutine body of `SessionService.Watch` (api/server/sessions.go) selects
on a status channel and an error channel; we embed the merged feed as a list
of tagged events, as delivered to the single watcher task.  The outcome of
the n-th `SessionStatusUpdate` write is given by `w n` (`true` = success). -/

inductive WatchEvent where
  | status (s : String)
  | err (e : GoError)
deriving DecidableEq, Repr

/-- The watcher loop of `SessionService.Watch`: persist each received status;
stop after a feed error, after a failed write, or right after persisting
`terminated`.  Returns the statuses persisted, in order. -/
def watchLoop (w : Nat → Bool) : List WatchEvent → Nat → List String
  | [], _ => []
  | .err _ :: _, _ => []
  | .status s :: rest, n =>
    if w n then
      if s = statusTerminated then [s]
      else s :: watchLoop w rest (n + 1)
    else []

/-- The statuses carried by the feed up to its first error event. -/
def feedStatuses : List WatchEvent → List String
  | [] => []
  | .err _ :: _ => []
  | .status s :: rest => s :: feedStatuses rest

theorem watchLoop_mono (w : Nat → Bool) :
    ∀ (evts : List WatchEvent) (n : Nat),
      ∃ t, feedStatuses evts = watchLoop w evts n ++ t := by
  intro evts
  induction evts with
  | nil => intro n; exact ⟨[], rfl⟩
  | cons e rest ih =>
    intro n
    cases e with
    | err e => exact ⟨[], rfl⟩
    | status s =>
      by_cases hw : w n
      · by_cases ht : s = statusTerminated
        · exact ⟨feedStatuses rest, by simp [watchLoop, feedStatuses, hw, ht]⟩
        · obtain ⟨t, h⟩ := ih (n + 1)
          exact ⟨t, by simp [watchLoop, feedStatuses, hw, ht, h]⟩
      · exact ⟨s :: feedStatuses rest, by simp [watchLoop, feedStatuses, hw]⟩

theorem watchLoop_term_last (w : Nat → Bool) :
    ∀ (evts : List WatchEvent) (n : Nat),
      statusTerminated ∉ (watchLoop w evts n).dropLast := by
  intro evts
  induction evts with
  | nil => intro n; simp [watchLoop]
  | cons e rest ih =>
    intro n
    cases e with
    | err e => simp [watchLoop]
    | status s =>
      by_cases hw : w n
      · by_cases ht : s = statusTerminated
        · simp [watchLoop, hw, ht]
        · rw [watchLoop, if_pos hw, if_neg ht]
          cases hrest : watchLoop w rest (n + 1) with
          | nil => simp
          | cons b l =>
            rw [List.dropLast_cons₂]
            intro hmem
            rcases List.mem_cons.mp hmem with h | h
            · exact ht h.symm
            · have := ih (n + 1)
              rw [hrest] at this
              exact this h
      · simp [watchLoop, hw]

/-- C2: within one watcher task, statuses are persisted in feed order (the
persisted sequence extends to the feed statuses, so it is an in-order
initial segment), nothing is persisted after a persisted `terminated`
status or after a write or feed error, and for the feed
`initializing, active, terminated, active` exactly the first three statuses
are persisted. -/
theorem watcher_stops_after_terminated :
    watchLoop (fun _ => true)
        [.status statusInitializing, .status statusActive,
         .status statusTerminated, .status statusActive] 0
      = [statusInitializing, statusActive, statusTerminated]
    ∧ ∀ (w : Nat → Bool) (evts : List WatchEvent) (n : Nat),
        (∃ t, feedStatuses evts = watchLoop w evts n ++ t)
        ∧ statusTerminated ∉ (watchLoop w evts n).dropLast := by
  refine ⟨by decide, fun w evts n => ⟨watchLoop_mono w evts n, watchLoop_term_last w evts n⟩⟩

/-! ## LambdaLabs provider adapter

Embedding of `providers/lambdalabs/lambdalabs.go`.  The provider key store
and the catalog are the data the vendor REST API reports; transport-level
failures and the launch response envelope are parameters. -/

/-- An SSH key record in the provider key store (the LambdaLabs API always
reports a name and a public key). -/
structure LLKey where
  name : String
  publicKey : String
deriving DecidableEq, Repr

/-- Error constructors `err400` .. `errUnknown` from the adapter.  Every
cause argument on the paths embedded here is `nil` in the source, so the
cause field is omitted. -/
def err400 (msg : String) : GoError := .uw 400 lambdaLabsProvider msg ""

def err401 (msg : String) : GoError :=
  .uw 401 lambdaLabsProvider msg "Make sure your LambdaLabs credentials are up to date"

def err403 (msg : String) : GoError :=
  .uw 403 lambdaLabsProvider msg "Make sure your LambdaLabs credentials are up to date"

def err404 (msg : String) : GoError := .uw 404 lambdaLabsProvider msg ""

def err500 (msg : String) : GoError :=
  .uw 500 lambdaLabsProvider (if msg = "" then "Unknown error" else msg)
    "LambdaLabs might be experiencing issues. Check the service status page at https://status.lambdalabs.com/"

def errUnknown (code : Nat) : GoError := .uw code lambdaLabsProvider "Unknown error" ""

/-- `Session.ListSSHKeys` maps each provider record to a `types.SSHKey`. -/
def llListSSHKeys (store : List LLKey) : List SSHKey :=
  store.map fun k => { name := k.name, publicKey := some k.publicKey }

/-- The scan loop of `Session.AddSSHKey` over the listed provider keys, in
store order: a record with the requested name is returned unless the
supplied public key conflicts (400); a record matching the supplied public
key under another name is returned; otherwise the scan continues. -/
def addScan (key : SSHKey) : List LLKey → Option (Except GoError SSHKey)
  | [] => none
  | k :: rest =>
    if key.name = k.name then
      some (match key.publicKey with
        | some p =>
          if p ≠ k.publicKey then
            .error (err400 "SSH key with the same name already exists with a different public key")
          else .ok { name := k.name, publicKey := some k.publicKey }
        | none => .ok { name := k.name, publicKey := some k.publicKey })
    else
      match key.publicKey with
      | some p =>
        if k.publicKey = p then some (.ok { name := k.name, publicKey := some k.publicKey })
        else addScan key rest
      | none => addScan key rest

/-- `Session.AddSSHKey`.  `listErr` is a transport failure of the initial
`ListSSHKeys` call; `addErr` a failure of the creation request.  On a
successful creation the vendor stores the supplied public key, or a freshly
generated one (`genPk`) when none was supplied, and echoes the stored
record. -/
def addSSHKey (listErr addErr : Option GoError) (genPk : String)
    (store : List LLKey) (key : SSHKey) : Except GoError SSHKey × List LLKey :=
  if key.name = "" then (.error (.str "SSH key name is required"), store)
  else
    match listErr with
    | some e => (.error (.wrap "failed to list ssh keys, err" e), store)
    | none =>
      match addScan key store with
      | some r => (r, store)
      | none =>
        match addErr with
        | some e => (.error e, store)
        | none =>
          let newKey : LLKey := { name := key.name, publicKey := key.publicKey.getD genPk }
          (.ok { name := newKey.name, publicKey := some newKey.publicKey }, store ++ [newKey])

/-- `types.NodeSpecs`. -/
structure NodeSpecs where
  vcpus : Nat := 0
  memory : Nat := 0
  gpuMemory : Option Nat := none
deriving DecidableEq, Repr

/-- `types.NodeType`: a catalog entry; `regions` lists exactly the regions
the vendor currently reports capacity in (`RegionsWithCapacityAvailable`). -/
structure NodeType where
  id : String
  name : Option String := none
  price : Option Nat := none
  regions : List String := []
  description : Option String := none
  provider : String := lambdaLabsProvider
  specs : NodeSpecs := {}
deriving DecidableEq, Repr

/-- `types.Node`. -/
structure Node where
  id : String
  typeID : String
  region : String
  keyPair : SSHKey
  status : String
  provider : String
deriving DecidableEq, Repr

/-- The region scan inside `Session.finRegionForNode`: the first catalog
entry for the node type that has a nonempty region list yields its first
region. -/
def findRegion (nodeTypeID : String) : List NodeType → Option String
  | [] => none
  | nt :: rest =>
    if nt.id = nodeTypeID then
      match nt.regions with
      | [] => findRegion nodeTypeID rest
      | r :: _ => some r
    else findRegion nodeTypeID rest

/-- `Session.finRegionForNode`.  `listRes` is the result of the live
`ListNodeTypes` call and `marshal` the JSON serialization used for the
remediation suggestion. -/
def finRegionForNode (listRes : Except GoError (List NodeType))
    (marshal : List NodeType → String) (nodeTypeID : String) : Except GoError String :=
  match listRes with
  | .error e => .error (.wrap "failed to list instance availability, err" e)
  | .ok nts =>
    match findRegion nodeTypeID nts with
    | some r => .ok r
    | none =>
      .error (.uw 503 lambdaLabsProvider
        ("No region with available capacity for node type \"" ++ nodeTypeID ++ "\"")
        (marshal nts))

/-- A LambdaLabs launch request body. -/
structure LaunchReq where
  instanceTypeName : String
  name : String
  quantity : Nat
  regionName : String
  sshKeyNames : List String
deriving DecidableEq, Repr

/-- The response envelope of a LambdaLabs endpoint: either the 200 payload
or one of the error statuses the adapter distinguishes. -/
inductive LLResp (α : Type) where
  | ok (data : α)
  | e400 (msg : String)
  | e401 (msg : String)
  | e403 (msg : String)
  | e404 (msg : String)
  | e500 (msg : String)
  | other (code : Nat)
deriving DecidableEq, Repr

/-- Substring test used for the capacity check on 400 responses. -/
def strContains (s sub : String) : Bool :=
  (List.range (s.toList.length + 1)).any fun i => sub.toList.isPrefixOf (s.toList.drop i)

/-- `Session.InitNode`: picks a region via `finRegionForNode` when none was
supplied, then issues one launch request and maps the response envelope.
Returns the result together with the launch request issued, if any. -/
def initNode (listRes : Except GoError (List NodeType))
    (marshal marshalIndent : List NodeType → String)
    (launch : LaunchReq → LLResp (List String)) (phrase : String)
    (sshKey : SSHKey) (nodeTypeID : String) (region : Option String) :
    Except GoError Node × Option LaunchReq :=
  let regionRes : Except GoError String :=
    match region with
    | some r => .ok r
    | none => finRegionForNode listRes marshal nodeTypeID
  match regionRes with
  | .error e => (.error e, none)
  | .ok reg =>
    let req : LaunchReq :=
      { instanceTypeName := nodeTypeID, name := "uw-" ++ phrase, quantity := 1,
        regionName := reg, sshKeyNames := [sshKey.name] }
    match launch req with
    | .ok ids =>
      match ids with
      | [] => (.error (.str "failed to launch instance"), some req)
      | id :: _ =>
        (.ok { id := id, typeID := nodeTypeID, region := reg, keyPair := sshKey,
               status := statusInitializing, provider := lambdaLabsProvider }, some req)
    | .e401 msg => (.error (err401 msg), some req)
    | .e403 msg => (.error (err403 msg), some req)
    | .e500 msg => (.error (err500 msg), some req)
    | .e404 msg => (.error (err404 msg), some req)
    | .e400 msg =>
      if strContains msg.toLower "available capacity" then
        let sugg := match listRes with
          | .ok nts => marshalIndent nts
          | .error _ => ""
        (.error (.uw 503 lambdaLabsProvider msg sugg), some req)
      else (.error (err400 msg), some req)
    | .other code => (.error (errUnknown code), some req)

/-! ### Properties of `AddSSHKey` -/

theorem addScan_append (key : SSHKey) (l1 l2 : List LLKey) :
    addScan key (l1 ++ l2)
      = match addScan key l1 with
        | some r => some r
        | none => addScan key l2 := by
  induction l1 with
  | nil => simp [addScan]
  | cons k rest ih =>
    by_cases hn : key.name = k.name
    · simp [addScan, hn]
    · cases hp : key.publicKey with
      | none => simpa [addScan, hn, hp] using ih
      | some p =>
        by_cases hk : k.publicKey = p
        · simp [addScan, hn, hp, hk]
        · simpa [addScan, hn, hp, hk] using ih

theorem addScan_self (key : SSHKey) (genPk : String) :
    addScan key [{ name := key.name, publicKey := key.publicKey.getD genPk }]
      = some (.ok { name := key.name, publicKey := some (key.publicKey.getD genPk) }) := by
  cases hp : key.publicKey <;> simp [addScan, hp]

/-- C4 counterexample: a store that holds a key named `alice` with public key
`PK1`, preceded by a key `other` with public key `PK2`.  `AddSSHKey` for
`(alice, PK2)` succeeds and returns the `other` record although a key with
the requested name exists with a different public key, so the call does not
fail with a 400 as the claim requires. -/
theorem addSSHKey_name_conflict_not_rejected :
    addSSHKey none none "gen" [⟨"other", "PK2"⟩, ⟨"alice", "PK1"⟩]
        { name := "alice", publicKey := some "PK2" }
      = (.ok { name := "other", publicKey := some "PK2" },
         [⟨"other", "PK2"⟩, ⟨"alice", "PK1"⟩])
    ∧ ∃ k ∈ [(⟨"other", "PK2"⟩ : LLKey), ⟨"alice", "PK1"⟩],
        k.name = "alice" ∧ k.publicKey ≠ "PK2" := by
  constructor
  · rfl
  · exact ⟨⟨"alice", "PK1"⟩, by decide, by decide, by decide⟩

/-- C4 (amended): the provider store is scanned in order and the first record
matching the supplied name (returned, or rejected with a 400 on a public-key
conflict) or matching the supplied public key (returned) settles the call;
only when no record matches is a new one created.  Consequently `AddSSHKey`
is idempotent: when a call succeeds, repeating it with identical input
returns the same key and leaves the provider store unchanged, so no
duplicate record is ever created. -/
theorem addSSHKey_idempotent (genPk : String) (store : List LLKey) (key : SSHKey)
    (r : SSHKey) (s1 : List LLKey)
    (h : addSSHKey none none genPk store key = (.ok r, s1)) :
    addSSHKey none none genPk s1 key = (.ok r, s1) := by
  by_cases hn : key.name = ""
  · simp [addSSHKey, hn] at h
  · rw [addSSHKey, if_neg hn] at h
    cases h1 : addScan key store with
    | some res =>
      rw [h1] at h
      cases res with
      | error e => simp at h
      | ok k =>
        simp only [Prod.mk.injEq, Except.ok.injEq] at h
        obtain ⟨hr, hs⟩ := h
        subst hr
        subst hs
        rw [addSSHKey, if_neg hn, h1]
    | none =>
      rw [h1] at h
      simp only [Prod.mk.injEq, Except.ok.injEq] at h
      obtain ⟨hr, hs⟩ := h
      rw [addSSHKey, if_neg hn]
      have hscan : addScan key s1
          = some (.ok { name := key.name, publicKey := some (key.publicKey.getD genPk) }) := by
        rw [← hs, addScan_append, h1, addScan_self]
      rw [hscan, ← hr]

/-- C4 witness: a fresh key is created on the first call and the second call
returns the identical key without growing the store. -/
theorem addSSHKey_idempotent_witness :
    addSSHKey none none "gen" [] { name := "alice", publicKey := some "PK1" }
      = (.ok { name := "alice", publicKey := some "PK1" }, [⟨"alice", "PK1"⟩])
    ∧ addSSHKey none none "gen" [⟨"alice", "PK1"⟩] { name := "alice", publicKey := some "PK1" }
      = (.ok { name := "alice", publicKey := some "PK1" }, [⟨"alice", "PK1"⟩]) :=
  ⟨by rfl,
   addSSHKey_idempotent "gen" [] { name := "alice", publicKey := some "PK1" }
     { name := "alice", publicKey := some "PK1" } [⟨"alice", "PK1"⟩] (by rfl)⟩

/-! ### Properties of region selection in `InitNode` -/

theorem findRegion_mem (id : String) (nts : List NodeType) (r : String)
    (h : findRegion id nts = some r) :
    ∃ nt ∈ nts, nt.id = id ∧ nt.regions.head? = some r := by
  induction nts with
  | nil => simp [findRegion] at h
  | cons nt rest ih =>
    by_cases hid : nt.id = id
    · cases hr : nt.regions with
      | nil =>
        rw [findRegion, if_pos hid, hr] at h
        obtain ⟨nt', hmem, h1, h2⟩ := ih h
        exact ⟨nt', List.mem_cons_of_mem _ hmem, h1, h2⟩
      | cons a l =>
        rw [findRegion, if_pos hid, hr] at h
        exact ⟨nt, List.mem_cons_self _ _, hid, by rw [hr, ← h]; rfl⟩
    · rw [findRegion, if_neg hid] at h
      obtain ⟨nt', hmem, h1, h2⟩ := ih h
      exact ⟨nt', List.mem_cons_of_mem _ hmem, h1, h2⟩

theorem findRegion_none (id : String) (nts : List NodeType)
    (h : ∀ nt ∈ nts, nt.id = id → nt.regions = []) :
    findRegion id nts = none := by
  induction nts with
  | nil => rfl
  | cons nt rest ih =>
    by_cases hid : nt.id = id
    · have := h nt (List.mem_cons_self _ _) hid
      rw [findRegion, if_pos hid, this]
      exact ih fun nt' hm => h nt' (List.mem_cons_of_mem _ hm)
    · rw [findRegion, if_neg hid]
      exact ih fun nt' hm => h nt' (List.mem_cons_of_mem _ hm)

/-- The test catalog of the claim: node type `X` with no region reporting
capacity, node type `Y` available in `us-east`. -/
def catalogXY : List NodeType := [{ id := "X" }, { id := "Y", regions := ["us-east"] }]

/-- C5: when no region is supplied, `InitNode` selects the first region of a
catalog entry for the requested node type that reports capacity; when every
catalog entry for the node type reports no region, it fails with a 503
carrying the serialized catalog as suggestion and no launch request is
issued; for the catalog with `X ↦ []` and `Y ↦ [us-east]`, `InitNode` for
`Y` launches in `us-east` and `InitNode` for `X` fails with the 503. -/
theorem initNode_region_selection :
    (∀ (nts : List NodeType) (marshal : List NodeType → String) (id r : String),
        finRegionForNode (.ok nts) marshal id = .ok r →
          ∃ nt ∈ nts, nt.id = id ∧ nt.regions.head? = some r)
    ∧ (∀ (nts : List NodeType) (marshal : List NodeType → String) (id : String),
        (∀ nt ∈ nts, nt.id = id → nt.regions = []) →
          finRegionForNode (.ok nts) marshal id
            = .error (.uw 503 lambdaLabsProvider
                ("No region with available capacity for node type \"" ++ id ++ "\"")
                (marshal nts)))
    ∧ (∀ (listRes : Except GoError (List NodeType))
          (marshal marshalIndent : List NodeType → String)
          (launch : LaunchReq → LLResp (List String)) (phrase : String)
          (sshKey : SSHKey) (id : String) (e : GoError),
        finRegionForNode listRes marshal id = .error e →
          initNode listRes marshal marshalIndent launch phrase sshKey id none
            = (.error e, none))
    ∧ initNode (.ok catalogXY) (fun _ => "cat") (fun _ => "cat")
          (fun _ => .ok ["i-1"]) "ph" { name := "k" } "Y" none
        = (.ok { id := "i-1", typeID := "Y", region := "us-east", keyPair := { name := "k" },
                 status := statusInitializing, provider := lambdaLabsProvider },
           some { instanceTypeName := "Y", name := "uw-ph", quantity := 1,
                  regionName := "us-east", sshKeyNames := ["k"] })
    ∧ initNode (.ok catalogXY) (fun _ => "cat") (fun _ => "cat")
          (fun _ => .ok ["i-1"]) "ph" { name := "k" } "X" none
        = (.error (.uw 503 lambdaLabsProvider
            "No region with available capacity for node type \"X\"" "cat"), none) := by
  refine ⟨?_, ?_, ?_, by rfl, by rfl⟩
  · intro nts marshal id r h
    rw [finRegionForNode] at h
    cases hf : findRegion id nts with
    | none => rw [hf] at h; simp at h
    | some r' =>
      rw [hf] at h
      simp only [Except.ok.injEq] at h
      exact h ▸ findRegion_mem id nts r' hf
  · intro nts marshal id h
    rw [finRegionForNode, findRegion_none id nts h]
  · intro listRes marshal marshalIndent launch phrase sshKey id e h
    simp [initNode, h]

/-- C5 witness: the general conjuncts applied to the `X`/`Y` catalog. -/
theorem initNode_region_selection_witness :
    (∃ nt ∈ catalogXY, nt.id = "Y" ∧ nt.regions.head? = some "us-east")
    ∧ finRegionForNode (.ok catalogXY) (fun _ => "cat") "X"
        = .error (.uw 503 lambdaLabsProvider
            ("No region with available capacity for node type \"" ++ "X" ++ "\"")
            ((fun _ => "cat") catalogXY))
    ∧ initNode (.ok catalogXY) (fun _ => "cat") (fun _ => "cat")
          (fun _ => .ok ["i-1"]) "ph" { name := "k" } "X" none
        = (.error (.uw 503 lambdaLabsProvider
            "No region with available capacity for node type \"X\"" "cat"), none) :=
  ⟨initNode_region_selection.1 catalogXY (fun _ => "cat") "Y" "us-east" (by rfl),
   initNode_region_selection.2.1 catalogXY (fun _ => "cat") "X" (by decide),
   initNode_region_selection.2.2.1 (.ok catalogXY) (fun _ => "cat") (fun _ => "cat")
     (fun _ => .ok ["i-1"]) "ph" { name := "k" } "X"
     (.uw 503 lambdaLabsProvider "No region with available capacity for node type \"X\"" "cat")
     (by rfl)⟩


/-- Equality of `Except` results is decidable; used to evaluate embedded
operations on concrete inputs. -/
instance {ε α : Type} [DecidableEq ε] [DecidableEq α] : DecidableEq (Except ε α) := fun x y =>
  match x, y with
  | .ok a, .ok b =>
    if h : a = b then .isTrue (congrArg Except.ok h)
    else .isFalse fun hc => h (Except.ok.inj hc)
  | .error a, .error b =>
    if h : a = b then .isTrue (congrArg Except.error h)
    else .isFalse fun hc => h (Except.error.inj hc)
  | .ok _, .error _ => .isFalse fun hc => Except.noConfusion hc
  | .error _, .ok _ => .isFalse fun hc => Except.noConfusion hc

/-! ## Credential resolver

Embedding of `fetchCredentials` (api/server/sessions.go).  The persisted key
store is a list of rows; `canon` is the composition of
`ssh.ParseAuthorizedKey` and `ssh.MarshalAuthorizedKey` (`none` on a parse
failure) and `phrase` the random phrase used for auto-generated names.  The
store reads and the insert are recorded as effects so that statements about
which lookup paths execute are expressible. -/

/-- A persisted SSH key row (`unweave.ssh_keys`): name, owner, public key,
creation time. -/
structure KeyRow where
  name : String
  ownerID : String
  publicKey : String
  createdAt : Nat := 0
deriving DecidableEq, Repr

/-- Modelled from the spec: the generated query `SSHKeyGetByName` of the
persistence port — reads the SSH key with the given name, scoped by owner
(the service passes `Name` and `OwnerID`; the spec states each key read is
scoped by owner).  `none` plays the role of `sql.ErrNoRows`. -/
def sshKeyGetByName (store : List KeyRow) (ownerID name : String) : Option KeyRow :=
  store.find? fun r => r.ownerID == ownerID && r.name == name

/-- Modelled from the spec: the generated query `SSHKeyGetByPublicKey` of the
persistence port — reads the SSH key with the given public key, scoped by
owner. -/
def sshKeyGetByPublicKey (store : List KeyRow) (ownerID publicKey : String) : Option KeyRow :=
  store.find? fun r => r.ownerID == ownerID && r.publicKey == publicKey

/-- The `types.SSHKey` value `fetchCredentials` builds from a persisted row. -/
def keyOfRow (r : KeyRow) : SSHKey :=
  { name := r.name, publicKey := some r.publicKey, createdAt := some r.createdAt }

/-- Store accesses performed by `fetchCredentials`. -/
inductive FCEffect where
  | nameLookup (name : String)
  | pkLookup (canonical : String)
  | save (row : KeyRow)
deriving DecidableEq, Repr

/-- Result of `fetchCredentials`: the returned value, the key store after the
call, and the store accesses performed. -/
structure FCResult where
  result : Except GoError SSHKey
  store : List KeyRow
  effects : List FCEffect
deriving DecidableEq, Repr

/-- The key name used on the create path: the supplied name, or
`uw:` + random phrase when none (or the empty string) was supplied. -/
def genName (phrase : String) : Option String → String
  | none => "uw:" ++ phrase
  | some n => if n = "" then "uw:" ++ phrase else n

/-- The name-lookup effect trace: one lookup when a name was supplied. -/
def nameEffects : Option String → List FCEffect
  | none => []
  | some n => [.nameLookup n]

/-- The tail of `fetchCredentials` after the name lookup missed (sessions.go
lines 63-113): normalize the supplied public key and look it up by canonical
form; fail with 400 when no public key was supplied or it does not parse;
otherwise persist a new row holding the supplied public-key string verbatim
and return it. -/
def fcPkPath (canon : String → Option String) (phrase : String)
    (accountID : String) (store : List KeyRow)
    (sshKeyName sshPublicKey : Option String) : FCResult :=
  match sshPublicKey with
  | none => ⟨.error (.uw 400 "" "SSH key not found" ""), store, nameEffects sshKeyName⟩
  | some p =>
    match canon p with
    | none => ⟨.error (.uw 400 "" "Invalid SSH public key" ""), store, nameEffects sshKeyName⟩
    | some c =>
      match sshKeyGetByPublicKey store accountID c with
      | some k => ⟨.ok (keyOfRow k), store, nameEffects sshKeyName ++ [.pkLookup c]⟩
      | none =>
        let nm := genName phrase sshKeyName
        let row : KeyRow := { name := nm, ownerID := accountID, publicKey := p }
        ⟨.ok { name := nm, publicKey := some p }, store ++ [row],
         nameEffects sshKeyName ++ [.pkLookup c, .save row]⟩

/-- `fetchCredentials`: reject when neither name nor public key was given;
return the row found by the supplied name; otherwise continue with the
public-key path. -/
def fetchCredentials (canon : String → Option String) (phrase : String)
    (accountID : String) (store : List KeyRow)
    (sshKeyName sshPublicKey : Option String) : FCResult :=
  match sshKeyName, sshPublicKey with
  | none, none =>
    ⟨.error (.uw 400 "" "Either Key name or Public Key must be provided" ""), store, []⟩
  | some n, pk =>
    match sshKeyGetByName store accountID n with
    | some k => ⟨.ok (keyOfRow k), store, nameEffects (some n)⟩
    | none => fcPkPath canon phrase accountID store (some n) pk
  | none, some p => fcPkPath canon phrase accountID store none (some p)

/-- A supplied name either was not given or misses the store. -/
def nameMissed (store : List KeyRow) (accountID : String) : Option String → Prop
  | none => True
  | some n => sshKeyGetByName store accountID n = none

/-! ### Owner scoping of the lookups -/

theorem find?_owner (a : String) (p : KeyRow → Bool) (l : List KeyRow) :
    (l.find? fun r => r.ownerID == a && p r) = (l.filter fun r => r.ownerID == a).find? p := by
  induction l with
  | nil => rfl
  | cons r rest ih =>
    by_cases ho : r.ownerID = a
    · by_cases hp : p r = true
      · simp [List.find?, List.filter, ho, hp]
      · simp only [Bool.not_eq_true] at hp
        simp [List.find?, List.filter, ho, hp, ih]
    · have hb : (r.ownerID == a) = false := by simp [ho]
      simp [List.find?, List.filter, hb, ih]

theorem sshKeyGetByName_scoped (s t : List KeyRow) (a n : String)
    (h : (s.filter fun r => r.ownerID == a) = t.filter fun r => r.ownerID == a) :
    sshKeyGetByName s a n = sshKeyGetByName t a n := by
  rw [sshKeyGetByName, sshKeyGetByName, find?_owner, find?_owner, h]

theorem sshKeyGetByPublicKey_scoped (s t : List KeyRow) (a c : String)
    (h : (s.filter fun r => r.ownerID == a) = t.filter fun r => r.ownerID == a) :
    sshKeyGetByPublicKey s a c = sshKeyGetByPublicKey t a c := by
  rw [sshKeyGetByPublicKey, sshKeyGetByPublicKey, find?_owner, find?_owner, h]

theorem nameHit_owner (s : List KeyRow) (a n : String) (k : KeyRow)
    (h : sshKeyGetByName s a n = some k) : k ∈ s ∧ k.ownerID = a := by
  refine ⟨List.mem_of_find?_eq_some h, ?_⟩
  have := List.find?_some h
  simp only [Bool.and_eq_true, beq_iff_eq] at this
  exact this.1

theorem pkHit_owner (s : List KeyRow) (a c : String) (k : KeyRow)
    (h : sshKeyGetByPublicKey s a c = some k) : k ∈ s ∧ k.ownerID = a := by
  refine ⟨List.mem_of_find?_eq_some h, ?_⟩
  have := List.find?_some h
  simp only [Bool.and_eq_true, beq_iff_eq] at this
  exact this.1

theorem fcPkPath_scoped (canon : String → Option String) (phrase a : String)
    (nm pk : Option String) (s t : List KeyRow)
    (hf : (s.filter fun r => r.ownerID == a) = t.filter fun r => r.ownerID == a) :
    (fcPkPath canon phrase a s nm pk).result = (fcPkPath canon phrase a t nm pk).result := by
  cases pk with
  | none => rfl
  | some p =>
    cases hc : canon p with
    | none => simp only [fcPkPath, hc]
    | some c =>
      simp only [fcPkPath, hc, sshKeyGetByPublicKey_scoped s t a c hf]
      cases sshKeyGetByPublicKey t a c <;> rfl

theorem fcPkPath_save_owner (canon : String → Option String) (phrase a : String)
    (nm pk : Option String) (s : List KeyRow) (row : KeyRow)
    (hmem : FCEffect.save row ∈ (fcPkPath canon phrase a s nm pk).effects) :
    row.ownerID = a := by
  cases pk with
  | none =>
    simp only [fcPkPath] at hmem
    cases nm <;> simp [nameEffects] at hmem
  | some p =>
    cases hc : canon p with
    | none =>
      simp only [fcPkPath, hc] at hmem
      cases nm <;> simp [nameEffects] at hmem
    | some c =>
      cases hpk : sshKeyGetByPublicKey s a c with
      | some k =>
        simp only [fcPkPath, hc, hpk] at hmem
        cases nm <;> simp [nameEffects] at hmem
      | none =>
        simp only [fcPkPath, hc, hpk, List.mem_append, List.mem_cons,
          List.not_mem_nil, or_false] at hmem
        rcases hmem with h | h | h
        · cases nm <;> simp [nameEffects] at h
        · exact absurd h (by simp)
        · cases h
          rfl

theorem fcPkPath_ok_origin (canon : String → Option String) (phrase a : String)
    (nm pk : Option String) (s : List KeyRow) (key : SSHKey)
    (hok : (fcPkPath canon phrase a s nm pk).result = .ok key)
    (hnosave : ∀ row, FCEffect.save row ∉ (fcPkPath canon phrase a s nm pk).effects) :
    ∃ r ∈ s, r.ownerID = a ∧ key = keyOfRow r := by
  cases pk with
  | none => simp [fcPkPath] at hok
  | some p =>
    cases hc : canon p with
    | none => simp only [fcPkPath, hc] at hok; simp at hok
    | some c =>
      cases hpk : sshKeyGetByPublicKey s a c with
      | some k =>
        simp only [fcPkPath, hc, hpk, Except.ok.injEq] at hok
        obtain ⟨hk1, hk2⟩ := pkHit_owner s a c k hpk
        exact ⟨k, hk1, hk2, hok.symm⟩
      | none =>
        simp only [fcPkPath, hc, hpk] at hnosave
        exact absurd (by simp :
          FCEffect.save { name := genName phrase nm, ownerID := a, publicKey := p } ∈
            (nameEffects nm ++
              [FCEffect.pkLookup c,
               FCEffect.save { name := genName phrase nm, ownerID := a, publicKey := p }]))
          (hnosave _)

/-- C6: the key lookups of `fetchCredentials` are scoped to the calling
account.  The returned value depends only on the rows owned by the account —
rows of other owners, even with the same name or public key, never affect
it; every row it inserts is owned by the account; and when it returns a key
without inserting one, that key comes from a row of the store owned by the
account. -/
theorem fetchCredentials_owner_scoped :
    (∀ (canon : String → Option String) (phrase a : String) (nm pk : Option String)
        (s t : List KeyRow),
        (s.filter fun r => r.ownerID == a) = (t.filter fun r => r.ownerID == a) →
          (fetchCredentials canon phrase a s nm pk).result
            = (fetchCredentials canon phrase a t nm pk).result)
    ∧ (∀ (canon : String → Option String) (phrase a : String) (nm pk : Option String)
        (s : List KeyRow) (row : KeyRow),
        FCEffect.save row ∈ (fetchCredentials canon phrase a s nm pk).effects →
          row.ownerID = a)
    ∧ (∀ (canon : String → Option String) (phrase a : String) (nm pk : Option String)
        (s : List KeyRow) (key : SSHKey),
        (fetchCredentials canon phrase a s nm pk).result = .ok key →
          (∀ row, FCEffect.save row ∉ (fetchCredentials canon phrase a s nm pk).effects) →
          ∃ r ∈ s, r.ownerID = a ∧ key = keyOfRow r) := by
  refine ⟨?_, ?_, ?_⟩
  · intro canon phrase a nm pk s t hf
    cases nm with
    | none =>
      cases pk with
      | none => rfl
      | some p => exact fcPkPath_scoped canon phrase a none (some p) s t hf
    | some n =>
      rw [fetchCredentials, fetchCredentials, sshKeyGetByName_scoped s t a n hf]
      cases sshKeyGetByName t a n with
      | some k => rfl
      | none => exact fcPkPath_scoped canon phrase a (some n) pk s t hf
  · intro canon phrase a nm pk s row hmem
    cases nm with
    | none =>
      cases pk with
      | none => simp [fetchCredentials] at hmem
      | some p => exact fcPkPath_save_owner canon phrase a none (some p) s row hmem
    | some n =>
      rw [fetchCredentials] at hmem
      cases hn : sshKeyGetByName s a n with
      | some k => rw [hn] at hmem; simp [nameEffects] at hmem
      | none =>
        rw [hn] at hmem
        exact fcPkPath_save_owner canon phrase a (some n) pk s row hmem
  · intro canon phrase a nm pk s key hok hnosave
    cases nm with
    | none =>
      cases pk with
      | none => simp [fetchCredentials] at hok
      | some p => exact fcPkPath_ok_origin canon phrase a none (some p) s key hok hnosave
    | some n =>
      rw [fetchCredentials] at hok hnosave
      cases hn : sshKeyGetByName s a n with
      | some k =>
        rw [hn] at hok
        simp only [Except.ok.injEq] at hok
        obtain ⟨hk1, hk2⟩ := nameHit_owner s a n k hn
        exact ⟨k, hk1, hk2, hok.symm⟩
      | none =>
        rw [hn] at hok hnosave
        exact fcPkPath_ok_origin canon phrase a (some n) pk s key hok hnosave

/-- C6 witness: a row owned by another account is invisible — the result over
a store holding only that row equals the result over the empty store. -/
theorem fetchCredentials_owner_scoped_witness :
    (fetchCredentials (fun _ => none) "ph" "acct"
        [{ name := "k", ownerID := "other", publicKey := "PK" }] (some "k") none).result
      = (fetchCredentials (fun _ => none) "ph" "acct" [] (some "k") none).result :=
  fetchCredentials_owner_scoped.1 (fun _ => none) "ph" "acct" (some "k") none
    [{ name := "k", ownerID := "other", publicKey := "PK" }] [] (by decide)

/-- C7: lookup precedence of `fetchCredentials`.  A supplied name that hits a
persisted row settles the call: the row is returned, the only store access
is the name lookup, and the public-key path never executes.  When the name
was absent or missed and the supplied public key normalizes to a canonical
form matching a persisted row, that row is returned.  When that lookup also
misses, a new row is persisted — named `uw:` + random phrase when no (or an
empty) name was supplied — and returned. -/
theorem fetchCredentials_lookup_precedence :
    (∀ (canon : String → Option String) (phrase a n : String) (pk : Option String)
        (store : List KeyRow) (k : KeyRow),
        sshKeyGetByName store a n = some k →
          fetchCredentials canon phrase a store (some n) pk
              = ⟨.ok (keyOfRow k), store, [.nameLookup n]⟩
            ∧ ∀ c, FCEffect.pkLookup c ∉ (fetchCredentials canon phrase a store (some n) pk).effects)
    ∧ (∀ (canon : String → Option String) (phrase a p c : String) (nm : Option String)
        (store : List KeyRow) (k : KeyRow),
        nameMissed store a nm → canon p = some c →
          sshKeyGetByPublicKey store a c = some k →
          (fetchCredentials canon phrase a store nm (some p)).result = .ok (keyOfRow k))
    ∧ (∀ (canon : String → Option String) (phrase a p c : String) (nm : Option String)
        (store : List KeyRow),
        nameMissed store a nm → canon p = some c →
          sshKeyGetByPublicKey store a c = none →
          fetchCredentials canon phrase a store nm (some p)
            = ⟨.ok { name := genName phrase nm, publicKey := some p },
               store ++ [{ name := genName phrase nm, ownerID := a, publicKey := p }],
               nameEffects nm ++ [.pkLookup c,
                 .save { name := genName phrase nm, ownerID := a, publicKey := p }]⟩) := by
  refine ⟨?_, ?_, ?_⟩
  · intro canon phrase a n pk store k hn
    rw [fetchCredentials, hn]
    exact ⟨rfl, by simp [nameEffects]⟩
  · intro canon phrase a p c nm store k hm hc hpk
    cases nm with
    | none =>
      show (fcPkPath canon phrase a store none (some p)).result = _
      simp only [fcPkPath, hc, hpk]
    | some n =>
      have hn : sshKeyGetByName store a n = none := hm
      simp only [fetchCredentials, hn, fcPkPath, hc, hpk]
  · intro canon phrase a p c nm store hm hc hpk
    cases nm with
    | none =>
      show fcPkPath canon phrase a store none (some p) = _
      simp only [fcPkPath, hc, hpk]
    | some n =>
      have hn : sshKeyGetByName store a n = none := hm
      simp only [fetchCredentials, hn, fcPkPath, hc, hpk]

/-- C7 witness: the name path settles on a persisted row without touching the
public-key path, evaluated on a one-row store. -/
theorem fetchCredentials_lookup_precedence_witness :
    fetchCredentials (fun _ => none) "ph" "acct"
        [{ name := "k", ownerID := "acct", publicKey := "PK", createdAt := 7 }]
        (some "k") (some "PK")
      = ⟨.ok { name := "k", publicKey := some "PK", createdAt := some 7 },
         [{ name := "k", ownerID := "acct", publicKey := "PK", createdAt := 7 }],
         [.nameLookup "k"]⟩ :=
  (fetchCredentials_lookup_precedence.1 (fun _ => none) "ph" "acct" "k" (some "PK")
    [{ name := "k", ownerID := "acct", publicKey := "PK", createdAt := 7 }]
    { name := "k", ownerID := "acct", publicKey := "PK", createdAt := 7 } (by decide)).1

/-- C10: on the create path of `fetchCredentials` (name absent or missed, a
public key supplied, canonical lookup missed) the persisted row and the
returned key carry the supplied public-key string verbatim; whenever the
canonical re-serialized form differs from the supplied string, the stored
value is not the canonical form — that form is used only as the lookup
key. -/
theorem fetchCredentials_saves_verbatim_key
    (canon : String → Option String) (phrase a p c : String) (nm : Option String)
    (store : List KeyRow)
    (hm : nameMissed store a nm) (hc : canon p = some c)
    (hpk : sshKeyGetByPublicKey store a c = none) :
    (fetchCredentials canon phrase a store nm (some p)).store
        = store ++ [{ name := genName phrase nm, ownerID := a, publicKey := p }]
    ∧ (fetchCredentials canon phrase a store nm (some p)).result
        = .ok { name := genName phrase nm, publicKey := some p }
    ∧ (∀ row, FCEffect.save row ∈ (fetchCredentials canon phrase a store nm (some p)).effects →
        row.publicKey = p)
    ∧ (c ≠ p →
        ∀ row, FCEffect.save row ∈ (fetchCredentials canon phrase a store nm (some p)).effects →
          row.publicKey ≠ c) := by
  have heq := fetchCredentials_lookup_precedence.2.2 canon phrase a p c nm store hm hc hpk
  rw [heq]
  refine ⟨rfl, rfl, ?_, ?_⟩
  · intro row hmem
    simp only [List.mem_append, List.mem_cons, List.not_mem_nil, or_false] at hmem
    rcases hmem with h | h | h
    · cases nm <;> simp [nameEffects] at h
    · exact absurd h (by simp)
    · cases h
      rfl
  · intro hcp row hmem
    simp only [List.mem_append, List.mem_cons, List.not_mem_nil, or_false] at hmem
    rcases hmem with h | h | h
    · cases nm <;> simp [nameEffects] at h
    · exact absurd h (by simp)
    · cases h
      exact fun hx => hcp (hx ▸ rfl)

/-- C10 witness: with a normalizer that appends a marker, the stored and the
returned public key are the supplied string, not its canonical form. -/
theorem fetchCredentials_saves_verbatim_key_witness :
    (fetchCredentials (fun s => some (s ++ "#")) "ph" "acct" [] none (some "PK")).store
        = [{ name := "uw:ph", ownerID := "acct", publicKey := "PK" }]
    ∧ (fetchCredentials (fun s => some (s ++ "#")) "ph" "acct" [] none (some "PK")).result
        = .ok { name := "uw:ph", publicKey := some "PK" } := by
  have h := fetchCredentials_saves_verbatim_key (fun s => some (s ++ "#")) "ph" "acct" "PK"
    "PK#" none [] trivial (by rfl) (by rfl)
  exact ⟨by rw [h.1]; rfl, h.2.1⟩

/-! ## Session service orchestration

Embedding of `SessionService` (api/server/sessions.go).  The sessions table
is a list of rows in the created-at descending order the queries return;
the outcomes of the external calls of each operation (runtime construction,
credential resolution and registration, node provisioning, node
termination, the status write) are fields of an environment record, so each
early-return path of the source is represented. -/

/-- A persisted session row (`unweave.sessions`): id, node id, creator,
creation time, project, provider, region, name, key name and status.
The status column is `initializing` on insert (modelled from the spec:
the schema default of the status column; `Create` persists a new Session
row with status Initializing). -/
structure SessionRow where
  id : String
  nodeID : String
  createdBy : String
  createdAt : Nat := 0
  projectID : String
  provider : String
  region : String
  name : String
  sshKeyName : String
  status : String := statusInitializing
deriving DecidableEq, Repr

/-- `types.Session` as returned by the service. -/
structure Session where
  id : String
  sshKey : SSHKey
  status : String
  nodeTypeID : String := ""
  region : String := ""
  provider : String := ""
  nodeID : String := ""
deriving DecidableEq, Repr

/-- `types.SessionCreateParams`. -/
structure SessionCreateParams where
  provider : String
  nodeTypeID : String := ""
  region : Option String := none
  sshKeyName : Option String := none
  sshPublicKey : Option String := none
deriving DecidableEq, Repr

/-- Outcomes of the external calls `SessionService.Create` performs, in call
order: runtime construction, credential resolution, credential registration,
node provisioning, and the insert; plus the generated session id, the
calling account and the random session name. -/
structure CreateEnv where
  rtInit : Except GoError Unit
  fetchCred : Except GoError SSHKey
  registerCred : SSHKey → Except GoError Unit
  initNodeRes : SSHKey → String → Option String → Except GoError Node
  sessionCreateErr : Option GoError := none
  newSessionID : String
  cid : String
  phrase : String

/-- `SessionService.Create`: each failing step returns its wrapped error
before the insert; on success a row is appended and the session is built
from the provisioned node. -/
def create (env : CreateEnv) (projectID : String) (params : SessionCreateParams)
    (sessions : List SessionRow) : Except GoError Session × List SessionRow :=
  match env.rtInit with
  | .error e => (.error (.wrap "failed to create runtime" e), sessions)
  | .ok _ =>
    match env.fetchCred with
    | .error e => (.error (.wrap "failed to setup credentials" e), sessions)
    | .ok sshKey =>
      match env.registerCred sshKey with
      | .error e => (.error (.wrap "failed to register credentials" e), sessions)
      | .ok _ =>
        match env.initNodeRes sshKey params.nodeTypeID params.region with
        | .error e => (.error (.wrap "failed to init node" e), sessions)
        | .ok node =>
          match env.sessionCreateErr with
          | some e => (.error (.wrap "failed to create session in db" e), sessions)
          | none =>
            let row : SessionRow :=
              { id := env.newSessionID, nodeID := node.id, createdBy := env.cid,
                projectID := projectID, provider := params.provider, region := node.region,
                name := env.phrase, sshKeyName := sshKey.name }
            (.ok { id := env.newSessionID, sshKey := node.keyPair,
                   status := statusInitializing, nodeTypeID := node.typeID,
                   region := node.region, provider := node.provider },
             sessions ++ [row])

/-- The message and cause of the first failing step among runtime
construction, credential resolution, credential registration and node
provisioning, if any. -/
def firstFailure (env : CreateEnv) (params : SessionCreateParams) : Option GoError :=
  match env.rtInit with
  | .error e => some (.wrap "failed to create runtime" e)
  | .ok _ =>
    match env.fetchCred with
    | .error e => some (.wrap "failed to setup credentials" e)
    | .ok sshKey =>
      match env.registerCred sshKey with
      | .error e => some (.wrap "failed to register credentials" e)
      | .ok _ =>
        match env.initNodeRes sshKey params.nodeTypeID params.region with
        | .error e => some (.wrap "failed to init node" e)
        | .ok _ => none

/-- Modelled from the spec: the generated query `MxSessionGet` of the
persistence port — the session row selected by id, joined with its SSH key
row (the join can be keyed by the stored key name scoped by the creating
account; sessions reference a key through a foreign key). -/
def mxSessionGet (sessions : List SessionRow) (keys : List KeyRow) (sid : String) :
    Option (SessionRow × KeyRow) :=
  match sessions.find? fun r => r.id == sid with
  | none => none
  | some row =>
    (keys.find? fun k => k.ownerID == row.createdBy && k.name == row.sshKeyName).map
      fun k => (row, k)

/-- `SessionService.Get`: 404 when absent; otherwise the session is built
from the joined row.  The `nodeTypeID` field is filled from the node-id
column of the row (`NodeTypeID: dbs.NodeID` in the source). -/
def getSession (sessions : List SessionRow) (keys : List KeyRow) (sid : String) :
    Except GoError Session :=
  match mxSessionGet sessions keys sid with
  | none => .error (.uw 404 "" "Session not found" "")
  | some (row, k) =>
    .ok { id := sid,
          sshKey := { name := row.sshKeyName, publicKey := some k.publicKey,
                      createdAt := some k.createdAt },
          status := row.status,
          nodeTypeID := row.nodeID,
          region := row.region,
          provider := row.provider }

/-- Modelled from the spec: the generated query `SessionsGet` of the
persistence port — the rows of a project, in created-at descending order
(the row list is kept in that order), windowed by limit and offset. -/
def sessionsGet (sessions : List SessionRow) (projectID : String) (limit offset : Nat) :
    List SessionRow :=
  (((sessions.filter fun r => r.projectID == projectID).drop offset).take limit)

/-- The `types.Session` summary `SessionService.List` builds from a row
(`DBSessionStatusToAPIStatus` is the identity on the shared status
strings). -/
def listEntry (r : SessionRow) : Session :=
  { id := r.id, sshKey := { name := r.sshKeyName }, status := r.status }

/-- `SessionService.List`: reads the first page (limit 100, offset 0) of the
project rows and skips terminated rows unless `listTerminated` is set. -/
def listSessions (sessions : List SessionRow) (projectID : String) (listTerminated : Bool) :
    List Session :=
  (sessionsGet sessions projectID 100 0).filterMap fun r =>
    if !listTerminated && r.status == statusTerminated then none
    else some (listEntry r)

/-- Outcomes of the external calls `SessionService.Terminate` performs:
the session read (`noRows` renders a 404), runtime construction, the
provider-side node termination, and the terminal status write. -/
structure TerminateEnv where
  sessGet : Except GoError (Option SessionRow)
  rtInit : Except GoError Unit
  termNode : Except GoError Unit
  statusUpdateErr : Option GoError := none

/-- `SessionService.Terminate`: failures of the read, the runtime
construction or `TerminateNode` surface to the caller; a failure of the
terminal status write is logged only and the call still returns success.
The boolean records whether the terminal status write took effect. -/
def terminate (env : TerminateEnv) : Except GoError Unit × Bool :=
  match env.sessGet with
  | .error e => (.error (.wrap "failed to fetch session from db" e), false)
  | .ok none =>
    (.error (.uw 404 "" "Session not found" "Make sure the session id is valid"), false)
  | .ok (some _) =>
    match env.rtInit with
    | .error e => (.error (.wrap "failed to create runtime" e), false)
    | .ok _ =>
      match env.termNode with
      | .error e => (.error (.wrap "failed to terminate node" e), false)
      | .ok _ =>
        match env.statusUpdateErr with
        | some _ => (.ok (), false)
        | none => (.ok (), true)

/-! ### Create aborts before persistence -/

/-- C1: whenever runtime construction, credential resolution (the
`fetchCredentials` call), credential registration (`registerCredentials`) or
node provisioning (`InitNode`) fails, `Create` returns that step's wrapped
error and the sessions table is unchanged — the insert is never reached, so
in particular after a failing `InitNode` no Session row exists. -/
theorem create_aborts_before_persist (env : CreateEnv) (projectID : String)
    (params : SessionCreateParams) (sessions : List SessionRow) (e : GoError)
    (h : firstFailure env params = some e) :
    create env projectID params sessions = (.error e, sessions) := by
  cases hr : env.rtInit with
  | error e1 =>
    simp only [firstFailure, hr, Option.some.injEq] at h
    subst h
    simp [create, hr]
  | ok u =>
    cases hf : env.fetchCred with
    | error e1 =>
      simp only [firstFailure, hr, hf, Option.some.injEq] at h
      subst h
      simp [create, hr, hf]
    | ok sshKey =>
      cases hg : env.registerCred sshKey with
      | error e1 =>
        simp only [firstFailure, hr, hf, hg, Option.some.injEq] at h
        subst h
        simp [create, hr, hf, hg]
      | ok u2 =>
        cases hi : env.initNodeRes sshKey params.nodeTypeID params.region with
        | error e1 =>
          simp only [firstFailure, hr, hf, hg, hi, Option.some.injEq] at h
          subst h
          simp [create, hr, hf, hg, hi]
        | ok node =>
          simp only [firstFailure, hr, hf, hg, hi] at h
          exact Option.noConfusion h

/-- C1 witness: a failing `InitNode` aborts `Create` on the empty table and
no row is inserted. -/
theorem create_aborts_before_persist_witness :
    create { rtInit := .ok (), fetchCred := .ok { name := "k1" },
             registerCred := fun _ => .ok (),
             initNodeRes := fun _ _ _ => .error (.str "boom"),
             newSessionID := "s1", cid := "acct", phrase := "ph" } "p1"
        { provider := lambdaLabsProvider } []
      = (.error (.wrap "failed to init node" (.str "boom")), []) :=
  create_aborts_before_persist _ "p1" _ [] _ rfl

/-! ### The Create and Get round trip -/

/-- The environment of a successful `Create` whose provisioned node has id
`i-123` and node type `gpu_1x_a100`. -/
def envC3 : CreateEnv :=
  { rtInit := .ok (),
    fetchCred := .ok { name := "k1", publicKey := some "PKX" },
    registerCred := fun _ => .ok (),
    initNodeRes := fun k _ _ =>
      .ok { id := "i-123", typeID := "gpu_1x_a100", region := "us-east",
            keyPair := k, status := statusInitializing, provider := lambdaLabsProvider },
    newSessionID := "s1", cid := "acct", phrase := "ph" }

/-- The creation parameters of the C3 round trip. -/
def paramsC3 : SessionCreateParams :=
  { provider := lambdaLabsProvider, nodeTypeID := "gpu_1x_a100", region := some "us-east" }

/-- The key store backing the C3 round trip. -/
def keysC3 : List KeyRow :=
  [{ name := "k1", ownerID := "acct", publicKey := "PKX", createdAt := 5 }]

/-- C3: the round trip breaks on the node-type field.  A session created with
provider LambdaLabs, region `us-east` and node type `gpu_1x_a100` is
returned by `Create` with that node type, and `Get` before any watcher
transition returns the same provider, region and status Initializing — but
fills the `nodeTypeID` field with the node id `i-123` (`Get` assigns the
node-id column to the node-type field and the schema stores no node type),
which differs from the created node type. -/
theorem get_returns_node_id_as_node_type :
    (create envC3 "p1" paramsC3 []).1
      = .ok { id := "s1", sshKey := { name := "k1", publicKey := some "PKX" },
              status := statusInitializing, nodeTypeID := "gpu_1x_a100",
              region := "us-east", provider := lambdaLabsProvider }
    ∧ getSession (create envC3 "p1" paramsC3 []).2 keysC3 "s1"
      = .ok { id := "s1",
              sshKey := { name := "k1", publicKey := some "PKX", createdAt := some 5 },
              status := statusInitializing, nodeTypeID := "i-123",
              region := "us-east", provider := lambdaLabsProvider }
    ∧ "i-123" ≠ "gpu_1x_a100" := by
  refine ⟨rfl, rfl, by decide⟩

/-! ### Terminate and the terminal status write -/

/-- C8: when the session read, the runtime construction and the
provider-side `TerminateNode` all succeed, `Terminate` returns success even
when the write marking the session terminated fails — that failure is
logged, never surfaced to the caller. -/
theorem terminate_ignores_status_write_failure (env : TerminateEnv) (row : SessionRow)
    (h1 : env.sessGet = .ok (some row)) (h2 : env.rtInit = .ok ())
    (h3 : env.termNode = .ok ()) :
    (terminate env).1 = .ok () := by
  simp only [terminate, h1, h2, h3]
  cases env.statusUpdateErr <;> rfl

/-- The session row of the C8 witness. -/
def rowC8 : SessionRow :=
  { id := "s1", nodeID := "n1", createdBy := "acct", projectID := "p1",
    provider := lambdaLabsProvider, region := "us-east", name := "nm",
    sshKeyName := "k1" }

/-- C8 witness: a failing terminal status write after a successful node
termination still yields success. -/
theorem terminate_ignores_status_write_failure_witness :
    (terminate { sessGet := .ok (some rowC8), rtInit := .ok (), termNode := .ok (),
                 statusUpdateErr := some (.str "db down") }).1 = .ok () :=
  terminate_ignores_status_write_failure _ rowC8 rfl rfl rfl

/-! ### List and terminated sessions -/

/-- An active session row of project `p`. -/
def rowActiveP : SessionRow :=
  { id := "", nodeID := "", createdBy := "", projectID := "p", provider := "",
    region := "", name := "", sshKeyName := "", status := statusActive }

/-- A terminated session row of project `p`. -/
def rowTermP : SessionRow :=
  { id := "t", nodeID := "", createdBy := "", projectID := "p", provider := "",
    region := "", name := "", sshKeyName := "", status := statusTerminated }

/-- A project with 101 persisted sessions whose oldest row is terminated. -/
def rows101 : List SessionRow := List.replicate 100 rowActiveP ++ [rowTermP]

/-- C9 counterexample: `List` reads only the first page of 100 rows, so for a
project with 101 sessions whose oldest is terminated, the terminated session
is not returned even with `includeTerminated = true` — the claim that
terminated sessions are included then fails. -/
theorem list_terminated_beyond_page_missing :
    rowTermP ∈ rows101 ∧ rowTermP.status = statusTerminated ∧ rowTermP.projectID = "p"
    ∧ listEntry rowTermP ∉ listSessions rows101 "p" true
    ∧ ∀ s ∈ listSessions rows101 "p" true, s.id ≠ rowTermP.id := by
  decide

/-- C9 (amended): `List` with `includeTerminated = false` returns no session
with persisted status terminated, for every project and session count; with
`includeTerminated = true` every terminated row inside the page the query
returns (the first 100 project rows) is included. -/
theorem list_filters_terminated :
    (∀ (rows : List SessionRow) (p : String) (s : Session),
        s ∈ listSessions rows p false → s.status ≠ statusTerminated)
    ∧ (∀ (rows : List SessionRow) (p : String) (r : SessionRow),
        r ∈ sessionsGet rows p 100 0 → r.status = statusTerminated →
          listEntry r ∈ listSessions rows p true) := by
  constructor
  · intro rows p s hmem
    obtain ⟨r, hr, hf⟩ := List.mem_filterMap.mp hmem
    by_cases ht : r.status = statusTerminated
    · simp [ht] at hf
    · have hb : (r.status == statusTerminated) = false := by simp [ht]
      simp [hb] at hf
      subst hf
      exact ht
  · intro rows p r hmem ht
    refine List.mem_filterMap.mpr ⟨r, hmem, ?_⟩
    simp

/-- C9 witness: for a two-row project the active summary is status-clean and
the terminated row inside the page is listed when requested. -/
theorem list_filters_terminated_witness :
    ((listEntry rowActiveP).status ≠ statusTerminated)
    ∧ listEntry rowTermP ∈ listSessions [rowActiveP, rowTermP] "p" true :=
  ⟨list_filters_terminated.1 [rowActiveP, rowTermP] "p" (listEntry rowActiveP) (by decide),
   list_filters_terminated.2 [rowActiveP, rowTermP] "p" rowTermP (by decide) (by decide)⟩

end Unweave
